import Mathlib

/-!
Shallow embedding of the forum view-model logic implemented in
`src/components/forum/CommunityForum.tsx`, together with theorems that
check the specification's statements about it.

Modelling conventions:
* TypeScript strings are Lean `String`s; the JS string operations used by
  the component (`toLowerCase`, `includes`, `trim`, `split`) are embedded
  as executable functions over `String.data` (the underlying `List Char`).
* `created_at` / `updated_at` fields are ISO timestamp strings in the code,
  always consumed through `new Date(s).getTime()`; they are modelled
  directly as the resulting epoch-millisecond integers.
* JS numbers holding counts are modelled as `Int` (the comparators subtract
  them, so signed arithmetic is the faithful choice).
* An absent/`null` `parent_id` is `none`; an absent user is `none`.
* Early-return guards (`toast.error(...); return;`) are modelled by
  returning `none`: no store call is issued and the local cache is
  untouched in that branch of the source.
-/

namespace Forum

/-- The `Post` record of `CommunityForum.tsx` (interface `Post`). -/
structure Post where
  id : String
  title : String
  content : String
  is_anonymous : Bool
  likes_count : Int
  comments_count : Int
  tags : List String
  created_at : Int
  user_id : String
  updated_at : Int
deriving Repr, DecidableEq

/-- The `Comment` record of `CommunityForum.tsx` (interface `Comment`),
without the derived `replies` field: the tree returned by
`organizeComments` is modelled as a list of `Comment × List Comment`
pairs (node, direct replies). -/
structure Comment where
  id : String
  post_id : String
  content : String
  is_anonymous : Bool
  likes_count : Int
  created_at : Int
  user_id : String
  parent_id : Option String
deriving Repr, DecidableEq

/-- `type SortOption = 'newest' | 'oldest' | 'most_liked' | 'most_commented'`. -/
inductive SortOption
  | newest
  | oldest
  | most_liked
  | most_commented
deriving Repr, DecidableEq

/-- `type FilterOption = 'all' | 'my_posts' | 'anonymous'`. -/
inductive FilterOption
  | all
  | my_posts
  | anonymous
deriving Repr, DecidableEq

/-- JS `String.prototype.toLowerCase()`: per-character lowercasing. -/
def jsToLower (s : String) : String :=
  ⟨s.data.map Char.toLower⟩

/-- JS `String.prototype.includes(q)`: substring containment. -/
def jsIncludes (s q : String) : Bool :=
  (List.range (s.data.length + 1)).any (fun i => q.data.isPrefixOf (s.data.drop i))

/-- JS `String.prototype.trim()`: strip whitespace from both ends. -/
def jsTrim (s : String) : String :=
  ⟨(((s.data.dropWhile Char.isWhitespace).reverse).dropWhile Char.isWhitespace).reverse⟩

/-- The spec-level notion "q occurs case-insensitively as a substring of s". -/
def substringCI (q s : String) : Prop :=
  ∃ pre post, (jsToLower s).data = pre ++ (jsToLower q).data ++ post

/-- The search predicate of `applyFiltersAndSort` (lines 121–125):
`title.toLowerCase().includes(q) || content.toLowerCase().includes(q) ||
tags.some(tag => tag.toLowerCase().includes(q))` with `q = searchQuery.toLowerCase()`. -/
def matchesQuery (searchQuery : String) (post : Post) : Bool :=
  jsIncludes (jsToLower post.title) (jsToLower searchQuery) ||
  jsIncludes (jsToLower post.content) (jsToLower searchQuery) ||
  post.tags.any (fun tag => jsIncludes (jsToLower tag) (jsToLower searchQuery))

/-- The `if (searchQuery) { filtered = filtered.filter(...) }` step:
an empty query string is falsy, so no filtering happens. -/
def searchFilter (searchQuery : String) (posts : List Post) : List Post :=
  if searchQuery ≠ "" then posts.filter (matchesQuery searchQuery) else posts

/-- The user-filter step (lines 129–133).  Note the source's shape:
`if (filterBy === 'my_posts' && user) {...} else if (filterBy === 'anonymous') {...}`
— with `my_posts` and no user, NEITHER branch runs and the list passes
through unfiltered. -/
def userFilter (filterBy : FilterOption) (user : Option String) (posts : List Post) :
    List Post :=
  match filterBy, user with
  | .my_posts, some uid => posts.filter (fun post => post.user_id = uid)
  | .my_posts, none => posts
  | .anonymous, _ => posts.filter (fun post => post.is_anonymous)
  | .all, _ => posts

/-- The numeric comparator passed to `Array.prototype.sort` (lines 136–148). -/
def compareBy (sortBy : SortOption) (a b : Post) : Int :=
  match sortBy with
  | .oldest => a.created_at - b.created_at
  | .most_liked => b.likes_count - a.likes_count
  | .most_commented => b.comments_count - a.comments_count
  | .newest => b.created_at - a.created_at

/-- `filtered.sort(comparator)`: JS `Array.prototype.sort` is a stable sort
in which `a` may stay before `b` whenever `comparator(a,b) <= 0`; modelled
by the stable `List.mergeSort`. -/
def sortPosts (sortBy : SortOption) (posts : List Post) : List Post :=
  posts.mergeSort (fun a b => compareBy sortBy a b ≤ 0)

/-- The whole `applyFiltersAndSort` pipeline (lines 116–152): search filter,
then user filter, then sort; the result is stored as `filteredPosts`. -/
def applyFiltersAndSort (searchQuery : String) (filterBy : FilterOption)
    (user : Option String) (sortBy : SortOption) (posts : List Post) : List Post :=
  sortPosts sortBy (userFilter filterBy user (searchFilter searchQuery posts))

/-- `const POSTS_PER_PAGE = 10`. -/
def POSTS_PER_PAGE : Nat := 10

/-- `filteredPosts.slice((page-1)*size, page*size)` for a general page size;
JS `slice` clamps its bounds, exactly as `drop`/`take` do. -/
def pageSlice (size page : Nat) (xs : List Post) : List Post :=
  (xs.drop ((page - 1) * size)).take size

/-- `Math.ceil(n / size)` for natural `n` and positive `size`. -/
def numPages (size n : Nat) : Nat :=
  (n + size - 1) / size

/-- `getPaginatedPosts` (lines 286–290). -/
def getPaginatedPosts (currentPage : Nat) (filteredPosts : List Post) : List Post :=
  pageSlice POSTS_PER_PAGE currentPage filteredPosts

/-- `const totalPages = Math.ceil(filteredPosts.length / POSTS_PER_PAGE)` (line 292). -/
def totalPages (filteredPosts : List Post) : Nat :=
  numPages POSTS_PER_PAGE filteredPosts.length

/-- `comments.filter(reply => reply.parent_id === comment.id)`. -/
def repliesOf (comments : List Comment) (c : Comment) : List Comment :=
  comments.filter (fun reply => reply.parent_id = some c.id)

/-- `organizeComments` (lines 294–300): keep the comments with no
`parent_id` in order, and pair each with the input comments whose
`parent_id` equals its id. -/
def organizeComments (comments : List Comment) : List (Comment × List Comment) :=
  (comments.filter (fun c => c.parent_id = none)).map
    (fun c => (c, repliesOf comments c))

/-- Flatten a built tree back to a flat list: each top-level comment
followed by its direct replies. -/
def flattenTree (tree : List (Comment × List Comment)) : List Comment :=
  tree.flatMap (fun node => node.1 :: node.2)

/-- A push event on the `posts` channel (lines 82–95). -/
inductive PostsEvent
  | insertEvt (record : Post)
  | updateEvt (record : Post)
  | deleteEvt (old_id : String)
deriving Repr, DecidableEq

/-- The realtime merge of one `posts` push event into the cached post list
(lines 85–93): INSERT prepends unconditionally, UPDATE replaces by id,
DELETE removes by id. -/
def mergePostsEvent (e : PostsEvent) (prev : List Post) : List Post :=
  match e with
  | .insertEvt record => record :: prev
  | .updateEvt record => prev.map (fun post => if post.id = record.id then record else post)
  | .deleteEvt old_id => prev.filter (fun post => post.id ≠ old_id)

/-- The row sent to `supabase.from('posts').insert(...)` by `createPost`. -/
structure PostInsert where
  title : String
  content : String
  tags : List String
  is_anonymous : Bool
  user_id : String
deriving Repr, DecidableEq

/-- The `newPost` form state. -/
structure NewPostForm where
  title : String
  content : String
  tags : String
  is_anonymous : Bool
deriving Repr, DecidableEq

/-- `createPost` (lines 193–221) up to its store call: the guard
`if (!user || !newPost.title.trim() || !newPost.content.trim())` refuses
with a notice (`none`: no insert issued, cache untouched); otherwise the
insert row is built, with `tags.split(',').map(t => t.trim()).filter(Boolean)`. -/
def createPost (user : Option String) (newPost : NewPostForm) : Option PostInsert :=
  match user with
  | none => none
  | some uid =>
    if jsTrim newPost.title = "" ∨ jsTrim newPost.content = "" then none
    else some ⟨newPost.title, newPost.content,
      ((newPost.tags.splitOn ",").map jsTrim).filter (fun t => t ≠ ""),
      newPost.is_anonymous, uid⟩

/-- The row sent to `supabase.from('comments').insert(...)` by `createComment`. -/
structure CommentInsert where
  post_id : String
  content : String
  user_id : String
  parent_id : Option String
deriving Repr, DecidableEq

/-- The store effects of one successful `createComment` call: the inserted
comment row, and the `comments_count` value written to the parent post by
`supabase.from('posts').update({comments_count: ...})` — `none` when that
update is skipped (the only post write in `createComment`). -/
structure CommentCreateEffects where
  inserted : CommentInsert
  comments_count_write : Option Nat
deriving Repr, DecidableEq

/-- `createComment` (lines 223–260) up to its store calls: the guard
`if (!user || !newComment.trim())` refuses (`none`); otherwise the comment
row is inserted, and — only when `parentId` is absent — the parent post's
`comments_count` is updated to `(comments[postId]?.length || 0) + 1`,
where `comments[postId]` is the cached flat comment list (replies included),
modelled by `commentsCache`. -/
def createComment (user : Option String) (newComment : String) (postId : String)
    (parentId : Option String) (commentsCache : Option (List Comment)) :
    Option CommentCreateEffects :=
  match user with
  | none => none
  | some uid =>
    if jsTrim newComment = "" then none
    else some
      { inserted := ⟨postId, newComment, uid, parentId⟩
        comments_count_write :=
          match parentId with
          | some _ => none
          | none => some (((commentsCache.map List.length).getD 0) + 1) }

/-- The store effects of one successful `toggleLike` call: the
`likes_count` value written, and whether `fetchPosts()` was called to
refresh the cache afterwards. -/
structure LikeEffects where
  likes_count_write : Int
  refetched : Bool
deriving Repr, DecidableEq

/-- `toggleLike` (lines 262–277): refuses silently without a user;
otherwise writes `currentLikes + 1` (the cached count passed in from the
rendered post) and refetches the posts. -/
def toggleLike (user : Option String) (postId : String) (currentLikes : Int) :
    Option LikeEffects :=
  match user with
  | none => none
  | some _ => some ⟨currentLikes + 1, true⟩

/-! Concrete records used by witnesses and counterexamples, taken from the
spec's scenario data (§8). -/

/-- Scenario post 1: `{id:1, title:"sleep tips", likes:2, created:2024-01-01}`. -/
def exP1 : Post :=
  ⟨"1", "sleep tips", "content one", false, 2, 0, ["health"], 1704067200000, "u1", 1704067200000⟩

/-- Scenario post 2: `{id:2, title:"period pain", likes:5, created:2024-01-03}`. -/
def exP2 : Post :=
  ⟨"2", "period pain", "content two", true, 5, 1, ["wellness"], 1704240000000, "u2", 1704240000000⟩

/-- Scenario comment `a` (top-level). -/
def exCa : Comment := ⟨"a", "1", "first", false, 0, 1, "u1", none⟩

/-- Scenario comment `b` (reply to `a`). -/
def exCb : Comment := ⟨"b", "1", "second", false, 0, 2, "u2", some "a"⟩

/-- Scenario comment `c` (reply to reply `b` — orphaned in the tree). -/
def exCc : Comment := ⟨"c", "1", "third", false, 0, 3, "u1", some "b"⟩

/-- The effects of a concrete reply creation, used by the C10 witness. -/
def exEffReply : CommentCreateEffects := ⟨⟨"1", "hi", "u1", some "a"⟩, none⟩

/-- The predicate the user-filter step applies, read off `userFilter`:
with `my_posts` and no user the source filters nothing, so the predicate
there is constantly true. -/
def modePred (filterBy : FilterOption) (user : Option String) (post : Post) : Bool :=
  match filterBy, user with
  | .my_posts, some uid => post.user_id = uid
  | .my_posts, none => true
  | .anonymous, _ => post.is_anonymous
  | .all, _ => true

/-! ## Theorems -/

/-- C1: `organizeComments` returns exactly the comments with absent
`parent_id`, in input order, each annotated with the input comments whose
`parent_id` equals its id, in input (creation) order; a comment whose
parent reference names no top-level comment appears nowhere in the output;
empty input yields empty output. -/
theorem organizeComments_spec (cs : List Comment) :
    ((organizeComments cs).map Prod.fst = cs.filter (fun c => c.parent_id = none))
    ∧ (∀ node ∈ organizeComments cs,
        node.2 = cs.filter (fun reply => reply.parent_id = some node.1.id))
    ∧ (∀ c ∈ cs, ∀ pid, c.parent_id = some pid →
        (∀ t ∈ cs.filter (fun c => c.parent_id = none), t.id ≠ pid) →
        ∀ node ∈ organizeComments cs, node.1 ≠ c ∧ c ∉ node.2)
    ∧ organizeComments ([] : List Comment) = [] := by
  refine ⟨?_, ?_, ?_, rfl⟩
  · simp [organizeComments, Function.comp_def]
  · intro node hn
    rcases List.mem_map.1 hn with ⟨t, _, rfl⟩
    rfl
  · intro c _ pid hpid htop node hn
    rcases List.mem_map.1 hn with ⟨t, ht, rfl⟩
    have htnone : t.parent_id = none := by
      have := (List.mem_filter.1 ht).2
      simpa using this
    constructor
    · intro hteq
      have h1 : t = c := hteq
      rw [← h1, htnone] at hpid
      exact Option.noConfusion hpid
    · intro hcmem
      have hcmem' : c ∈ cs.filter (fun reply => reply.parent_id = some t.id) := hcmem
      have hcpar : c.parent_id = some t.id := by
        have := (List.mem_filter.1 hcmem').2
        simpa using this
      have hid : pid = t.id := by
        rw [hpid] at hcpar
        exact Option.some.inj hcpar
      exact (htop t ht) hid.symm

/-- Witness for C1 at the spec's scenario: comment `c` (parent `"b"`, a
non-top-level comment) appears nowhere in the tree built from `[a, b, c]`. -/
theorem organizeComments_spec_witness :
    exCc ∈ [exCa, exCb, exCc]
    ∧ exCc.parent_id = some "b"
    ∧ (∀ node ∈ organizeComments [exCa, exCb, exCc], node.1 ≠ exCc ∧ exCc ∉ node.2) :=
  ⟨by decide, rfl,
    (organizeComments_spec [exCa, exCb, exCc]).2.2.1 exCc (by decide) "b" rfl (by decide)⟩

/-- C2 (code bug): the realtime INSERT merge performs no de-duplication —
applying the same Insert push event twice to the empty cache leaves TWO
copies of the record, where the claim requires exactly one. -/
theorem mergePostsEvent_insert_not_idempotent :
    mergePostsEvent (.insertEvt exP1) (mergePostsEvent (.insertEvt exP1) []) = [exP1, exP1]
    ∧ (mergePostsEvent (.insertEvt exP1) (mergePostsEvent (.insertEvt exP1) [])).count exP1 = 2 :=
  ⟨rfl, by decide⟩

/-- C8: post and comment creation issue a store insert exactly when an
actor is present and the required text fields are non-empty after
trimming; otherwise they refuse client-side (`none`: a notice is surfaced,
no store call, cache untouched). -/
theorem create_guards_spec (user : Option String) (newPost : NewPostForm)
    (newComment postId : String) (parentId : Option String)
    (commentsCache : Option (List Comment)) :
    (createPost user newPost = none ↔
      user = none ∨ jsTrim newPost.title = "" ∨ jsTrim newPost.content = "")
    ∧ (createComment user newComment postId parentId commentsCache = none ↔
      user = none ∨ jsTrim newComment = "") := by
  constructor
  · cases user with
    | none => simp [createPost]
    | some uid =>
      by_cases h : jsTrim newPost.title = "" ∨ jsTrim newPost.content = ""
      · simp [createPost, h]
      · simp [createPost, h]
  · cases user with
    | none => simp [createComment]
    | some uid =>
      by_cases h : jsTrim newComment = ""
      · simp [createComment, h]
      · simp [createComment, h]

/-- Witness for C8: with no actor, `createPost` refuses. -/
theorem create_guards_spec_witness :
    createPost none ⟨"t", "c", "", false⟩ = none :=
  (create_guards_spec none ⟨"t", "c", "", false⟩ "x" "p" none none).1.mpr (Or.inl rfl)

/-- C9: an authenticated like writes exactly the cached count plus one to
the store and then refetches the posts. -/
theorem toggleLike_spec (uid postId : String) (currentLikes : Int) :
    toggleLike (some uid) postId currentLikes = some ⟨currentLikes + 1, true⟩ := rfl

/-- C10: a successful reply creation (parent reference present) issues no
`comments_count` write — the parent post's record is untouched; only a
top-level comment creation writes `comments_count`, and the value written
is the length of the cached comment list (replies included) plus one. -/
theorem createComment_frame (uid newComment postId : String)
    (parentId : Option String) (commentsCache : Option (List Comment))
    (eff : CommentCreateEffects)
    (h : createComment (some uid) newComment postId parentId commentsCache = some eff) :
    (∀ pid, parentId = some pid → eff.comments_count_write = none)
    ∧ (parentId = none →
        eff.comments_count_write = some (((commentsCache.map List.length).getD 0) + 1)) := by
  by_cases ht : jsTrim newComment = ""
  · simp [createComment, ht] at h
  · simp [createComment, ht] at h
    constructor
    · intro pid hp
      rw [← h, hp]
    · intro hp
      rw [← h, hp]

/-- Witness for C10: a concrete reply creation writes no `comments_count`. -/
theorem createComment_frame_witness :
    createComment (some "u1") "hi" "1" (some "a") none = some exEffReply
    ∧ exEffReply.comments_count_write = none :=
  ⟨by decide,
    (createComment_frame "u1" "hi" "1" (some "a") none exEffReply (by decide)).1 "a" rfl⟩

/-- `List.isPrefixOf` decides the "starts with" relation. -/
theorem isPrefixOf_iff_append (q xs : List Char) :
    q.isPrefixOf xs = true ↔ ∃ r, xs = q ++ r := by
  induction q generalizing xs with
  | nil => simp [List.isPrefixOf]
  | cons a as ih =>
    cases xs with
    | nil => simp [List.isPrefixOf]
    | cons b bs =>
      simp only [List.isPrefixOf, Bool.and_eq_true, beq_iff_eq, ih, List.cons_append,
        List.cons.injEq]
      constructor
      · rintro ⟨rfl, r, rfl⟩
        exact ⟨r, rfl, rfl⟩
      · rintro ⟨r, rfl, rfl⟩
        exact ⟨rfl, r, rfl⟩

/-- `jsIncludes` decides substring containment. -/
theorem jsIncludes_iff (s q : String) :
    jsIncludes s q = true ↔ ∃ pre post, s.data = pre ++ q.data ++ post := by
  unfold jsIncludes
  rw [List.any_eq_true]
  constructor
  · rintro ⟨i, _, hpre⟩
    rw [isPrefixOf_iff_append] at hpre
    obtain ⟨r, hr⟩ := hpre
    refine ⟨s.data.take i, r, ?_⟩
    conv_lhs => rw [← List.take_append_drop i s.data]
    rw [hr, List.append_assoc]
  · rintro ⟨pre, post, hs⟩
    refine ⟨pre.length, ?_, ?_⟩
    · rw [List.mem_range, hs, List.length_append, List.length_append]
      omega
    · rw [isPrefixOf_iff_append]
      refine ⟨post, ?_⟩
      rw [hs, List.append_assoc]
      exact List.drop_left pre (q.data ++ post)

/-- `matchesQuery` is exactly the claimed case-insensitive disjunction over
title, body and tags. -/
theorem matchesQuery_iff (q : String) (p : Post) :
    matchesQuery q p = true ↔
      (substringCI q p.title ∨ substringCI q p.content ∨ ∃ t ∈ p.tags, substringCI q t) := by
  unfold matchesQuery substringCI
  simp only [Bool.or_eq_true, jsIncludes_iff, List.any_eq_true]
  exact or_assoc

/-- The empty query matches every post (the empty list is everywhere a
sublist), which is why the source's skip-on-empty-query branch agrees with
unconditional filtering. -/
theorem matchesQuery_empty (p : Post) : matchesQuery "" p = true := by
  rw [matchesQuery_iff]
  exact Or.inl ⟨[], (jsToLower p.title).data, rfl⟩

/-- The search step always equals a plain filter by `matchesQuery`. -/
theorem searchFilter_eq_filter (q : String) (P : List Post) :
    searchFilter q P = P.filter (matchesQuery q) := by
  unfold searchFilter
  by_cases h : q = ""
  · subst h
    simp only [ne_eq, not_true_eq_false, if_false]
    exact (List.filter_eq_self.2 (fun p _ => matchesQuery_empty p)).symm
  · simp [h]

/-- The user-filter step always equals a plain filter by `modePred`. -/
theorem userFilter_eq_filter (f : FilterOption) (u : Option String) (P : List Post) :
    userFilter f u P = P.filter (modePred f u) := by
  cases f with
  | all =>
    cases u <;> exact (List.filter_eq_self.2 (fun p _ => rfl)).symm
  | my_posts =>
    cases u with
    | none => exact (List.filter_eq_self.2 (fun p _ => rfl)).symm
    | some uid => exact List.filter_congr (fun p _ => rfl)
  | anonymous =>
    cases u <;> exact List.filter_congr (fun p _ => rfl)

/-- C5: every post the free-text filter keeps contains the query
case-insensitively in its title, body or a tag; no filtered-out post does;
and the query condition composes with the filter mode by logical AND in
the full pipeline. -/
theorem searchFilter_spec (q : String) (P : List Post) (f : FilterOption)
    (u : Option String) (s : SortOption) :
    (∀ p ∈ searchFilter q P, p ∈ P ∧
      (substringCI q p.title ∨ substringCI q p.content ∨ ∃ t ∈ p.tags, substringCI q t))
    ∧ (∀ p ∈ P, p ∉ searchFilter q P →
      ¬(substringCI q p.title ∨ substringCI q p.content ∨ ∃ t ∈ p.tags, substringCI q t))
    ∧ applyFiltersAndSort q f u s P
        = sortPosts s (P.filter (fun p => matchesQuery q p && modePred f u p)) := by
  refine ⟨?_, ?_, ?_⟩
  · intro p hp
    rw [searchFilter_eq_filter] at hp
    have h := List.mem_filter.1 hp
    exact ⟨h.1, (matchesQuery_iff q p).1 h.2⟩
  · intro p hp hnp hmatch
    exact hnp (by
      rw [searchFilter_eq_filter]
      exact List.mem_filter.2 ⟨hp, (matchesQuery_iff q p).2 hmatch⟩)
  · unfold applyFiltersAndSort
    rw [searchFilter_eq_filter, userFilter_eq_filter, List.filter_filter]
    congr 1
    exact List.filter_congr (fun p _ => Bool.and_comm _ _)

/-- Witness for C5 at the spec's scenario: the query `"period"` keeps
post 2 and the theorem yields its substring guarantee. -/
theorem searchFilter_spec_witness :
    exP2 ∈ searchFilter "period" [exP1, exP2]
    ∧ (exP2 ∈ [exP1, exP2] ∧
      (substringCI "period" exP2.title ∨ substringCI "period" exP2.content ∨
        ∃ t ∈ exP2.tags, substringCI "period" t)) :=
  ⟨by decide, (searchFilter_spec "period" [exP1, exP2] .all none .newest).1 exP2 (by decide)⟩

/-- C3 (amended): with an actor, the `my_posts` pipeline returns exactly
the (query-filtered) posts authored by the actor, in the order produced by
the sort step; with NO actor the source skips the author filter entirely,
so the output is the sorted query-filtered collection, not the empty list. -/
theorem myPosts_filter_spec (q : String) (uid : String) (s : SortOption) (P : List Post) :
    (applyFiltersAndSort q .my_posts (some uid) s P
      = sortPosts s ((searchFilter q P).filter (fun p => p.user_id = uid)))
    ∧ (∀ p, p ∈ applyFiltersAndSort q .my_posts (some uid) s P ↔
        p ∈ searchFilter q P ∧ p.user_id = uid)
    ∧ applyFiltersAndSort q .my_posts none s P = sortPosts s (searchFilter q P) := by
  refine ⟨rfl, ?_, rfl⟩
  intro p
  unfold applyFiltersAndSort sortPosts
  rw [List.Perm.mem_iff (List.mergeSort_perm _ _)]
  unfold userFilter
  simp [List.mem_filter]

/-- Witness for C3's amended theorem at a concrete input. -/
theorem myPosts_filter_spec_witness :
    exP1 ∈ applyFiltersAndSort "" .my_posts (some "u1") .newest [exP1] ↔
      exP1 ∈ searchFilter "" [exP1] ∧ exP1.user_id = "u1" :=
  (myPosts_filter_spec "" "u1" .newest [exP1]).2.1 exP1

/-- Counterexample to C3 as stated: with filter mode `my_posts` and no
actor, the pipeline returns ALL posts (the source skips the filter), not
the empty list. -/
theorem myPosts_noActor_counterexample :
    applyFiltersAndSort "" .my_posts none .newest [exP1] = [exP1]
    ∧ applyFiltersAndSort "" .my_posts none .newest [exP1] ≠ [] := by
  have h : applyFiltersAndSort "" .my_posts none .newest [exP1] = [exP1] :=
    List.perm_singleton.1 (List.mergeSort_perm [exP1] _)
  exact ⟨h, by rw [h]; simp⟩

/-- C4 (amended): the rendered page is the clamped slice
`[(page-1)*10, page*10)` of the filtered sequence, and the total page
count is the ceiling of `length / 10` — with NO minimum of one (an empty
collection reports 0 total pages). -/
theorem pagination_spec (page : Nat) (hp : 1 ≤ page) (filteredPosts : List Post) :
    (∀ i : Nat, (getPaginatedPosts page filteredPosts).get? i =
      if (page - 1) * POSTS_PER_PAGE + i < page * POSTS_PER_PAGE
      then filteredPosts.get? ((page - 1) * POSTS_PER_PAGE + i) else none)
    ∧ totalPages filteredPosts = filteredPosts.length ⌈/⌉ POSTS_PER_PAGE := by
  constructor
  · intro i
    have hcond : ((page - 1) * POSTS_PER_PAGE + i < page * POSTS_PER_PAGE) ↔
        i < POSTS_PER_PAGE := by
      obtain ⟨k, rfl⟩ : ∃ k, page = k + 1 := ⟨page - 1, by omega⟩
      simp only [POSTS_PER_PAGE, Nat.add_sub_cancel]
      omega
    unfold getPaginatedPosts pageSlice
    by_cases hi : i < POSTS_PER_PAGE
    · rw [if_pos (hcond.2 hi)]
      rw [List.get?_take hi, List.get?_drop]
    · rw [if_neg (fun hlt => hi (hcond.1 hlt))]
      apply List.get?_eq_none.2
      calc (List.take POSTS_PER_PAGE _).length ≤ POSTS_PER_PAGE := by
            simpa using List.length_take_le POSTS_PER_PAGE _
        _ ≤ i := Nat.le_of_not_lt hi
  · rfl

/-- Witness for C4's amended theorem at a concrete input. -/
theorem pagination_spec_witness :
    1 ≤ 2 ∧ ((getPaginatedPosts 2 [exP1]).get? 0 =
      if (2 - 1) * POSTS_PER_PAGE + 0 < 2 * POSTS_PER_PAGE
      then [exP1].get? ((2 - 1) * POSTS_PER_PAGE + 0) else none) :=
  ⟨by decide, (pagination_spec 2 (by decide) [exP1]).1 0⟩

/-- Counterexample to C4 as stated: the source computes
`Math.ceil(length / 10)` with no minimum, so an empty collection reports
0 total pages, not 1. -/
theorem totalPages_empty_counterexample :
    totalPages ([] : List Post) = 0 ∧ totalPages ([] : List Post) ≠ 1 :=
  ⟨rfl, by decide⟩

/-- For a non-empty collection the ceiling page count unfolds by one page. -/
theorem numPages_pos (size n : Nat) (hs : 1 ≤ size) (hn : 1 ≤ n) :
    numPages size n = (n - 1) / size + 1 := by
  unfold numPages
  have h : n + size - 1 = (n - 1) + size := by omega
  rw [h, Nat.add_div_right _ hs]

/-- Concatenating the 1-indexed page slices of any list reproduces it,
for any page size ≥ 1. -/
theorem flatten_pageSlices (size : Nat) (hs : 1 ≤ size) :
    ∀ (n : Nat) (xs : List Post), xs.length ≤ n →
      ((List.range (numPages size xs.length)).map
        (fun i => pageSlice size (i + 1) xs)).flatten = xs := by
  intro n
  induction n with
  | zero =>
    intro xs hx
    have hnil : xs = [] := List.length_eq_zero.1 (Nat.le_zero.1 hx)
    subst hnil
    have h0 : numPages size 0 = 0 := by
      unfold numPages
      exact Nat.div_eq_of_lt (by omega)
    simp [h0]
  | succ n ih =>
    intro xs hx
    rcases Nat.eq_zero_or_pos xs.length with h0 | hpos
    · have hnil : xs = [] := List.length_eq_zero.1 h0
      subst hnil
      have h0' : numPages size 0 = 0 := by
        unfold numPages
        exact Nat.div_eq_of_lt (by omega)
      simp [h0']
    · rw [numPages_pos size _ hs hpos, List.range_succ_eq_map, List.map_cons,
        List.flatten_cons, List.map_map]
      have hf0 : pageSlice size (0 + 1) xs = xs.take size := by
        unfold pageSlice
        norm_num
      have hmap : (List.range ((xs.length - 1) / size)).map
            ((fun i => pageSlice size (i + 1) xs) ∘ Nat.succ)
          = (List.range ((xs.length - 1) / size)).map
            (fun i => pageSlice size (i + 1) (xs.drop size)) := by
        refine List.map_congr_left (fun i _ => ?_)
        show pageSlice size (i + 1 + 1) xs = pageSlice size (i + 1) (xs.drop size)
        unfold pageSlice
        rw [List.drop_drop]
        have harith : (i + 1 + 1 - 1) * size = size + (i + 1 - 1) * size := by
          have h2 : i + 1 + 1 - 1 = i + 1 := rfl
          have h1 : i + 1 - 1 = i := rfl
          rw [h2, h1, Nat.succ_mul, Nat.add_comm]
        rw [harith]
      have hk : (xs.length - 1) / size = numPages size (xs.drop size).length := by
        rw [List.length_drop]
        unfold numPages
        rcases Nat.le_total xs.length size with hle | hge
        · have e1 : xs.length - size = 0 := by omega
          rw [e1, Nat.div_eq_of_lt (by omega), Nat.div_eq_of_lt (by omega)]
        · have e2 : xs.length - size + size - 1 = xs.length - 1 := by omega
          rw [e2]
      rw [hf0, hmap, hk, ih (xs.drop size) (by rw [List.length_drop]; omega)]
      exact List.take_append_drop size xs

/-- C6: concatenating the page slices for pages 1 through the total page
count of the `most_liked`-sorted collection reproduces exactly the full
sorted sequence (hence no post is duplicated or omitted), for any page
size ≥ 1. -/
theorem pages_concat_spec (size : Nat) (hs : 1 ≤ size) (P : List Post) :
    ((List.range (numPages size (sortPosts .most_liked P).length)).map
      (fun i => pageSlice size (i + 1) (sortPosts .most_liked P))).flatten
      = sortPosts .most_liked P :=
  flatten_pageSlices size hs (sortPosts .most_liked P).length _ le_rfl

/-- Witness for C6 at a concrete page size and collection. -/
theorem pages_concat_spec_witness :
    1 ≤ 3 ∧ ((List.range (numPages 3 (sortPosts .most_liked [exP1]).length)).map
      (fun i => pageSlice 3 (i + 1) (sortPosts .most_liked [exP1]))).flatten
      = sortPosts .most_liked [exP1] :=
  ⟨by decide, pages_concat_spec 3 (by decide) [exP1]⟩

/-- Every member of a reply bucket carries the bucket owner's id as parent. -/
theorem repliesOf_parent {cs : List Comment} {t r : Comment}
    (hr : r ∈ repliesOf cs t) : r.parent_id = some t.id := by
  have h := (List.mem_filter.1 hr).2
  simpa using h

/-- `repliesOf` distributes over list append. -/
theorem repliesOf_append (l₁ l₂ : List Comment) (t : Comment) :
    repliesOf (l₁ ++ l₂) t = repliesOf l₁ t ++ repliesOf l₂ t :=
  List.filter_append _ _

/-- Filtering a flattening of reply blocks for the top-level comments
returns exactly the block owners, provided every owner is top-level. -/
theorem filter_flatMap_topLevel (cs : List Comment) :
    ∀ ts : List Comment, (∀ t ∈ ts, t.parent_id = none) →
      ((ts.map (fun c => (c, repliesOf cs c))).flatMap
        (fun node => node.1 :: node.2)).filter (fun c => c.parent_id = none) = ts := by
  intro ts hts
  induction ts with
  | nil => rfl
  | cons t ts ih =>
    rw [List.map_cons, List.flatMap_cons, List.filter_append]
    have hhead : (t :: repliesOf cs t).filter (fun c => c.parent_id = none) = [t] := by
      rw [List.filter_cons_of_pos (by simp [hts t (List.mem_cons_self t ts)])]
      rw [List.filter_eq_nil_iff.2 (fun r hr => by simp [repliesOf_parent hr])]
    rw [hhead, ih (fun u hu => hts u (List.mem_cons_of_mem t hu))]
    rfl

/-- A flattening of reply blocks contains no comment with parent `x` when
no block owner has id `x` (owners are top-level, members point at owners). -/
theorem repliesOf_flatMap_eq_nil (cs : List Comment) (x : Comment)
    (ts : List Comment) (hnone : ∀ t ∈ ts, t.parent_id = none)
    (hid : ∀ t ∈ ts, t.id ≠ x.id) :
    repliesOf ((ts.map (fun c => (c, repliesOf cs c))).flatMap
      (fun node => node.1 :: node.2)) x = [] := by
  rw [repliesOf, List.filter_eq_nil_iff]
  intro c hc
  rw [List.mem_flatMap] at hc
  obtain ⟨node, hnode, hcnode⟩ := hc
  rcases List.mem_map.1 hnode with ⟨t, htts, rfl⟩
  rcases List.mem_cons.1 hcnode with rfl | hcrep
  · simp [hnone c htts]
  · have hpar := repliesOf_parent hcrep
    simp [hpar, hid t htts]

/-- Re-collecting the replies of a top-level comment from the flattening
of the reply blocks gives back its original replies, provided the block
owners are top-level with pairwise-distinct ids. -/
theorem repliesOf_flatMap (cs : List Comment) :
    ∀ ts : List Comment, (∀ t ∈ ts, t.parent_id = none) →
      (ts.map Comment.id).Nodup →
      ∀ t' ∈ ts,
        repliesOf ((ts.map (fun c => (c, repliesOf cs c))).flatMap
          (fun node => node.1 :: node.2)) t' = repliesOf cs t' := by
  intro ts
  induction ts with
  | nil =>
    intro _ _ t' ht'
    exact absurd ht' (List.not_mem_nil t')
  | cons t ts ih =>
    intro hnone hnd t' ht'
    have hnone' : ∀ u ∈ ts, u.parent_id = none :=
      fun u hu => hnone u (List.mem_cons_of_mem t hu)
    have hndpair := List.nodup_cons.1 (by rw [List.map_cons] at hnd; exact hnd)
    rw [List.map_cons, List.flatMap_cons, repliesOf_append]
    rcases List.mem_cons.1 ht' with rfl | ht'mem
    · have hhead : repliesOf (t' :: repliesOf cs t') t' = repliesOf cs t' := by
        rw [repliesOf, List.filter_cons_of_neg
          (by simp [hnone t' (List.mem_cons_self t' ts)])]
        exact List.filter_eq_self.2 (fun r hr => by simp [repliesOf_parent hr])
      have htail : repliesOf ((ts.map (fun c => (c, repliesOf cs c))).flatMap
          (fun node => node.1 :: node.2)) t' = [] := by
        refine repliesOf_flatMap_eq_nil cs t' ts hnone' (fun u hu hue => ?_)
        exact hndpair.1 (hue ▸ List.mem_map_of_mem Comment.id hu)
      rw [hhead, htail, List.append_nil]
    · have hhead : repliesOf (t :: repliesOf cs t) t' = [] := by
        rw [repliesOf, List.filter_cons_of_neg
          (by simp [hnone t (List.mem_cons_self t ts)])]
        refine List.filter_eq_nil_iff.2 (fun r hr => ?_)
        have hpar := repliesOf_parent hr
        have htne : t.id ≠ t'.id :=
          fun hte => hndpair.1 (hte ▸ List.mem_map_of_mem Comment.id ht'mem)
        simp [hpar, htne]
      rw [hhead, List.nil_append]
      exact ih hnone' hndpair.2 t' ht'mem

/-- C7: the comment tree builder is idempotent on comment lists with
pairwise-distinct identifiers (the data-model invariant): flattening the
built tree — each top-level comment followed by its direct replies — and
rebuilding yields the same tree. -/
theorem organizeComments_idempotent (cs : List Comment)
    (h : (cs.map Comment.id).Nodup) :
    organizeComments (flattenTree (organizeComments cs)) = organizeComments cs := by
  have htopsnone : ∀ t ∈ cs.filter (fun c => c.parent_id = none), t.parent_id = none := by
    intro t ht
    have h2 := (List.mem_filter.1 ht).2
    simpa using h2
  have hsub : ((cs.filter (fun c => c.parent_id = none)).map Comment.id).Sublist
      (cs.map Comment.id) := (List.filter_sublist cs).map Comment.id
  have htopsnd := List.Nodup.sublist hsub h
  show ((flattenTree (organizeComments cs)).filter (fun c => c.parent_id = none)).map
      (fun c => (c, repliesOf (flattenTree (organizeComments cs)) c))
      = organizeComments cs
  rw [show flattenTree (organizeComments cs)
      = ((cs.filter (fun c => c.parent_id = none)).map
          (fun c => (c, repliesOf cs c))).flatMap (fun node => node.1 :: node.2) from rfl]
  rw [filter_flatMap_topLevel cs _ htopsnone]
  exact List.map_congr_left (fun t ht => by
    rw [repliesOf_flatMap cs _ htopsnone htopsnd t ht])

/-- Witness for C7 at the spec's scenario comments. -/
theorem organizeComments_idempotent_witness :
    ([exCa, exCb, exCc].map Comment.id).Nodup
    ∧ organizeComments (flattenTree (organizeComments [exCa, exCb, exCc]))
        = organizeComments [exCa, exCb, exCc] :=
  ⟨by decide, organizeComments_idempotent [exCa, exCb, exCc] (by decide)⟩

end Forum
